import Mathlib

/-!
Verification of the `doxtract` document extraction engine
(`backend/docparse.py`) against its natural-language specification.

Python strings are modelled as `List Char`; Python `int` values that can be
`None` or negative (`max_pages`) as `Option Int`; lengths as `Nat`; the
float-valued `processing_time` as `Rat`; fallible library calls
(`open`, `pdfplumber.open`, `fitz.open`, `Document`) as `Except` inputs
carrying either the produced data or the raised error's message.
Wall-clock values (`datetime.now().isoformat()`,
`(datetime.now() - start_time).total_seconds()`) are supplied by an
environment record, since the claims never constrain two distinct clock
reads against each other.
-/

/-- ASCII whitespace recognised by Python `str.strip` / `str.split`:
space, tab, newline, carriage return, vertical tab, form feed. -/
def isPySpace (c : Char) : Bool :=
  c == ' ' || c == '\t' || c == '\n' || c == '\r' || c == '\x0b' || c == '\x0c'

/-- Python `s.strip()`: remove leading and trailing whitespace. -/
def pyStrip (s : List Char) : List Char :=
  (((s.dropWhile isPySpace).reverse).dropWhile isPySpace).reverse

/-- Helper for Python `s.split()` (no separator): accumulate the current
word (reversed) and cut at every whitespace character, dropping empties. -/
def pyWordsAux : List Char → List Char → List (List Char)
  | [], acc => if acc.isEmpty then [] else [acc.reverse]
  | c :: cs, acc =>
    if isPySpace c then
      (if acc.isEmpty then [] else [acc.reverse]) ++ pyWordsAux cs []
    else
      pyWordsAux cs (c :: acc)

/-- Python `s.split()`: whitespace-separated tokens, no empty tokens. -/
def pyWords (s : List Char) : List (List Char) :=
  pyWordsAux s []

/-- Python `content.split('\f')` (the form feed character `'\x0c'`). -/
def splitFF : List Char → List (List Char)
  | [] => [[]]
  | c :: cs =>
    if c == '\x0c' then [] :: splitFF cs
    else
      match splitFF cs with
      | [] => [[c]]
      | p :: ps => (c :: p) :: ps

/-- Python `content.split` applied to the three-character separator made
of three newlines (the literal the source passes): non-overlapping
occurrences are consumed left to right, so a fourth consecutive newline
stays attached to the following chunk. -/
def splitNNN : List Char → List (List Char)
  | '\n' :: '\n' :: '\n' :: rest => [] :: splitNNN rest
  | [] => [[]]
  | c :: cs =>
    match splitNNN cs with
    | [] => [[c]]
    | p :: ps => (c :: p) :: ps

/-- Python `content[i:i+3000]` windows, `for i in range(0, len(content), 3000)`. -/
def chunk3000 : List Char → List (List Char)
  | [] => []
  | c :: cs => ((c :: cs).take 3000) :: chunk3000 ((c :: cs).drop 3000)
termination_by l => l.length
decreasing_by
  simp only [List.length_drop, List.length_cons]
  omega

/-- Python `'\n'.join(parts)`. -/
def joinNL : List (List Char) → List Char
  | [] => []
  | [x] => x
  | x :: y :: rest => x ++ '\n' :: joinNL (y :: rest)

/-- Python ASCII `str.lower` on one character. -/
def asciiLower (c : Char) : Char :=
  if 'A' ≤ c && c ≤ 'Z' then Char.ofNat (c.toNat + 32) else c

/-- Python `s.lower()` (ASCII range; extensions in the claims are ASCII). -/
def pyLower (s : List Char) : List Char :=
  s.map asciiLower

/-- Python `s.lstrip('.')`: remove all leading dots. -/
def pyLstripDot (s : List Char) : List Char :=
  s.dropWhile (· == '.')

/-- Whether `pat` is a prefix of `l` (Boolean, by character equality). -/
def isPre : List Char → List Char → Bool
  | [], _ => true
  | _ :: _, [] => false
  | a :: as, b :: bs => a == b && isPre as bs

/-- Whether `pat` occurs as a contiguous substring of `l`. -/
def hasSub (pat : List Char) : List Char → Bool
  | [] => isPre pat []
  | x :: rest => isPre pat (x :: rest) || hasSub pat rest

/-! ## Result model (`docparse.py` dataclasses) -/

/-- `ProcessingOptions` dataclass: configuration for one extraction call. -/
structure ProcessingOptions where
  max_pages : Option Int
  preserve_formatting : Bool
  extract_tables : Bool
  extract_metadata : Bool
  encoding : List Char
  error_handling : List Char
deriving Repr, DecidableEq

/-- Python dataclass defaults of `ProcessingOptions`. -/
def defaultOptions : ProcessingOptions :=
  ⟨none, false, true, true, "utf-8".data, "ignore".data⟩

/-- `DocumentMetadata` dataclass. -/
structure DocumentMetadata where
  filename : List Char
  file_size : Nat
  total_pages : Nat
  pages_processed : Int
  extraction_timestamp : List Char
  extraction_method : List Char
  processing_time : Rat
  document_type : List Char
deriving Repr, DecidableEq

/-- One table: rows of cell strings. -/
abbrev PyTable := List (List (List Char))

/-- `PageContent` dataclass. -/
structure PageContent where
  page_number : Nat
  text : List Char
  word_count : Nat
  character_count : Nat
  tables_count : Nat
  tables : List PyTable
deriving Repr, DecidableEq

/-- `ExtractionResult` dataclass. -/
structure ExtractionResult where
  metadata : DocumentMetadata
  pages : List PageContent
  success : Bool
  error_message : Option (List Char)
deriving Repr, DecidableEq

/-- Clock values observed during one extraction call. -/
structure Env where
  timestamp : List Char
  elapsed : Rat
deriving Repr, DecidableEq

/-- Python `a or b` for `a : Optional[int]`: `None` and `0` are falsy. -/
def pyOrInt (o : Option Int) (d : Int) : Int :=
  match o with
  | none => d
  | some v => if v = 0 then d else v

/-! ## PDF strategy -/

/-- One page as seen through `pdfplumber`: `page.extract_text()` may
return `None`, `page.extract_tables()` may return `None`. -/
structure PdfPage where
  extract_text : Option (List Char)
  extract_tables : Option (List PyTable)
deriving Repr, DecidableEq

/-- `PDFProcessor._create_error_metadata`. -/
def PDFProcessor.create_error_metadata (env : Env) (fname : List Char)
    (fexists : Bool) (fsize : Nat) : DocumentMetadata :=
  ⟨fname, if fexists then fsize else 0, 0, 0, env.timestamp, "failed".data,
    env.elapsed, "pdf".data⟩

/-- `PDFProcessor._extract_with_pdfplumber`, given the opened document. -/
def PDFProcessor.extract_with_pdfplumber (env : Env) (fname : List Char)
    (fsize : Nat) (pdf : List PdfPage) (options : ProcessingOptions) :
    ExtractionResult :=
  let total_pages := pdf.length
  let pages_to_process : Int := min (pyOrInt options.max_pages total_pages) total_pages
  let pages := (List.range pages_to_process.toNat).map (fun page_num =>
    let page := pdf.getD page_num ⟨none, none⟩
    let text := page.extract_text.getD []
    let tables := if options.extract_tables then page.extract_tables.getD [] else []
    PageContent.mk (page_num + 1) (pyStrip text)
      (if (pyStrip text).isEmpty then 0 else (pyWords text).length)
      (pyStrip text).length tables.length tables)
  ⟨⟨fname, fsize, total_pages, pages_to_process, env.timestamp,
      "pdfplumber".data, env.elapsed, "pdf".data⟩,
    pages, true, none⟩

/-- `PDFProcessor._extract_with_pymupdf`, given the opened document
(each page's `page.get_text()` string). -/
def PDFProcessor.extract_with_pymupdf (env : Env) (fname : List Char)
    (fsize : Nat) (doc : List (List Char)) (options : ProcessingOptions) :
    ExtractionResult :=
  let total_pages := doc.length
  let pages_to_process : Int := min (pyOrInt options.max_pages total_pages) total_pages
  let pages := (List.range pages_to_process.toNat).map (fun page_num =>
    let text := doc.getD page_num []
    PageContent.mk (page_num + 1) (pyStrip text)
      (if (pyStrip text).isEmpty then 0 else (pyWords text).length)
      (pyStrip text).length 0 [])
  ⟨⟨fname, fsize, total_pages, pages_to_process, env.timestamp,
      "pymupdf".data, env.elapsed, "pdf".data⟩,
    pages, true, none⟩

/-- `PDFProcessor.extract_text`: primary `pdfplumber` sub-strategy, then
`pymupdf` fallback; on double failure a failure result carrying the
primary error's description. -/
def PDFProcessor.extract_text (env : Env) (fname : List Char) (fexists : Bool)
    (fsize : Nat) (plumber : Except (List Char) (List PdfPage))
    (mupdf : Except (List Char) (List (List Char)))
    (options : ProcessingOptions) : ExtractionResult :=
  match plumber with
  | .ok pdf => PDFProcessor.extract_with_pdfplumber env fname fsize pdf options
  | .error e =>
    match mupdf with
    | .ok doc => PDFProcessor.extract_with_pymupdf env fname fsize doc options
    | .error _ =>
      ⟨PDFProcessor.create_error_metadata env fname fexists fsize, [], false,
        some ("PDF extraction failed: ".data ++ e)⟩

/-! ## TXT strategy -/

/-- `TXTProcessor._split_into_pages`: form-feed split, else the
triple-newline split, else 3000-character windows, else whole content. -/
def TXTProcessor.split_into_pages (content : List Char) : List (List Char) :=
  let pages1 := splitFF content
  if pages1.length > 1 then pages1.filter (fun p => !(pyStrip p).isEmpty)
  else
    let pages2 := splitNNN content
    if pages2.length > 1 then pages2.filter (fun p => !(pyStrip p).isEmpty)
    else if content.length > 3000 then chunk3000 content
    else if !(pyStrip content).isEmpty then [content] else [[]]

/-- `TXTProcessor._create_error_metadata`. -/
def TXTProcessor.create_error_metadata (env : Env) (fname : List Char)
    (fexists : Bool) (fsize : Nat) : DocumentMetadata :=
  ⟨fname, if fexists then fsize else 0, 0, 0, env.timestamp, "failed".data,
    env.elapsed, "txt".data⟩

/-- `TXTProcessor.extract_text`: read the file (modelled by `readResult`),
split into pages, build one `PageContent` per processed page. -/
def TXTProcessor.extract_text (env : Env) (fname : List Char) (fexists : Bool)
    (fsize : Nat) (readResult : Except (List Char) (List Char))
    (options : ProcessingOptions) : ExtractionResult :=
  match readResult with
  | .error e =>
    ⟨TXTProcessor.create_error_metadata env fname fexists fsize, [], false,
      some ("TXT extraction failed: ".data ++ e)⟩
  | .ok content =>
    let pages_text := TXTProcessor.split_into_pages content
    let total_pages := pages_text.length
    let pages_to_process : Int := min (pyOrInt options.max_pages total_pages) total_pages
    let pages := (List.range pages_to_process.toNat).map (fun page_num =>
      let text := pyStrip (pages_text.getD page_num [])
      PageContent.mk (page_num + 1) text
        (if text.isEmpty then 0 else (pyWords text).length)
        text.length 0 [])
    ⟨⟨fname, fsize, total_pages, pages_to_process, env.timestamp,
        "plain_text".data, env.elapsed, "txt".data⟩,
      pages, true, none⟩

/-! ## DOCX strategy -/

/-- Loop body of `DOCXProcessor._group_into_pages`: accumulate stripped
non-blank paragraph texts, flush on a blank paragraph when the buffer is
non-empty, flush the remaining buffer at the end. -/
def DOCXProcessor.groupAux : List (List Char) → List (List Char) →
    List (List Char) → List (List Char)
  | [], pages, current =>
    if current.isEmpty then pages else pages ++ [joinNL current]
  | p :: ps, pages, current =>
    if !(pyStrip p).isEmpty then
      DOCXProcessor.groupAux ps pages (current ++ [pyStrip p])
    else if !current.isEmpty then
      DOCXProcessor.groupAux ps (pages ++ [joinNL current]) []
    else DOCXProcessor.groupAux ps pages current

/-- `DOCXProcessor._group_into_pages` over the document's paragraph texts.
(The Python method also receives `options`, which it never reads.) -/
def DOCXProcessor.group_into_pages (paras : List (List Char)) : List (List Char) :=
  let pages := DOCXProcessor.groupAux paras [] []
  let pages :=
    if pages.isEmpty && !paras.isEmpty then
      let all_text := joinNL (paras.filter (fun p => !(pyStrip p).isEmpty))
      if !all_text.isEmpty then [all_text] else [[]]
    else pages
  if pages.isEmpty then [[]] else pages

/-- `DOCXProcessor._create_error_metadata`. -/
def DOCXProcessor.create_error_metadata (env : Env) (fname : List Char)
    (fexists : Bool) (fsize : Nat) : DocumentMetadata :=
  ⟨fname, if fexists then fsize else 0, 0, 0, env.timestamp, "failed".data,
    env.elapsed, "docx".data⟩

/-- `DOCXProcessor.extract_text`: open the document (modelled by
`docResult`, carrying the paragraph texts), group into pages, build one
`PageContent` per processed page (the page text is not re-stripped). -/
def DOCXProcessor.extract_text (env : Env) (fname : List Char) (fexists : Bool)
    (fsize : Nat) (docResult : Except (List Char) (List (List Char)))
    (options : ProcessingOptions) : ExtractionResult :=
  match docResult with
  | .error e =>
    ⟨DOCXProcessor.create_error_metadata env fname fexists fsize, [], false,
      some ("DOCX extraction failed: ".data ++ e)⟩
  | .ok paras =>
    let pages_text := DOCXProcessor.group_into_pages paras
    let total_pages := pages_text.length
    let pages_to_process : Int := min (pyOrInt options.max_pages total_pages) total_pages
    let pages := (List.range pages_to_process.toNat).map (fun page_num =>
      let text := pages_text.getD page_num []
      PageContent.mk (page_num + 1) text
        (if text.isEmpty then 0 else (pyWords text).length)
        text.length 0 [])
    ⟨⟨fname, fsize, total_pages, pages_to_process, env.timestamp,
        "python_docx".data, env.elapsed, "docx".data⟩,
      pages, true, none⟩

/-! ## Extraction engine -/

/-- `DocumentType(extension)`: the three registered formats, else the
`ValueError` branch (`none`). -/
inductive DocumentType where
  | pdf
  | txt
  | docx
deriving Repr, DecidableEq

/-- The `DocumentType(extension)` constructor call, `none` on `ValueError`. -/
def DocumentType.ofExtension (ext : List Char) : Option DocumentType :=
  if ext = "pdf".data then some .pdf
  else if ext = "txt".data then some .txt
  else if ext = "docx".data then some .docx
  else none

/-- The state of the file the engine was pointed at, together with the
outcome each format library would produce on it.  `name` and `suffix`
model `Path(file_path).name` and `Path(file_path).suffix` (the suffix
includes its leading dot, as in `pathlib`). -/
structure FileInput where
  name : List Char
  fexists : Bool
  suffix : List Char
  size : Nat
  txtRead : Except (List Char) (List Char)
  pdfPlumber : Except (List Char) (List PdfPage)
  pdfMupdf : Except (List Char) (List (List Char))
  docxParas : Except (List Char) (List (List Char))
deriving Repr

/-- `DocParseEngine.extract_text`: existence check, extension-based format
detection, dispatch to the matching strategy, result returned verbatim. -/
def DocParseEngine.extract_text (env : Env) (f : FileInput)
    (options : Option ProcessingOptions) : ExtractionResult :=
  let opts := match options with
    | none => defaultOptions
    | some o => o
  if f.fexists then
    let extension := pyLower (pyLstripDot f.suffix)
    match DocumentType.ofExtension extension with
    | some .pdf =>
      PDFProcessor.extract_text env f.name f.fexists f.size f.pdfPlumber f.pdfMupdf opts
    | some .txt =>
      TXTProcessor.extract_text env f.name f.fexists f.size f.txtRead opts
    | some .docx =>
      DOCXProcessor.extract_text env f.name f.fexists f.size f.docxParas opts
    | none =>
      ⟨⟨f.name, f.size, 0, 0, env.timestamp, "failed".data, 0, extension⟩,
        [], false, some ("Unsupported file type: ".data ++ extension)⟩
  else
    ⟨⟨f.name, 0, 0, 0, env.timestamp, "failed".data, 0, "unknown".data⟩,
      [], false, some "File not found".data⟩

/-! ## Spec-side definitions

These follow the words of the claims (not the source), for comparison
with the source-derived definitions above. -/

/-- Helper for `split_into_pages_claim`: split on maximal runs of three or
more consecutive newlines, as the claim's words describe.  `k` counts the
pending run of newlines, `acc` holds the current chunk reversed. -/
def splitNL3Go : List Char → Nat → List Char → List (List Char)
  | [], k, acc =>
    if k ≥ 3 then [acc.reverse, []]
    else [(List.replicate k '\n' ++ acc).reverse]
  | c :: cs, k, acc =>
    if c == '\n' then splitNL3Go cs (k + 1) acc
    else if k ≥ 3 then acc.reverse :: splitNL3Go cs 0 [c]
    else splitNL3Go cs 0 (c :: (List.replicate k '\n' ++ acc))

/-- Split on sequences of three or more consecutive newlines (the
claim's words for step 2 of the TXT segmentation). -/
def splitNL3 (l : List Char) : List (List Char) :=
  splitNL3Go l 0 []

/-- Modelled from the words of claim C2: each split step is used when it
yields more than one non-blank chunk after trimming, and step 2 splits on
sequences of three or more consecutive newlines. -/
def split_into_pages_claim (content : List Char) : List (List Char) :=
  let p1 := (splitFF content).filter (fun p => !(pyStrip p).isEmpty)
  if p1.length > 1 then p1
  else
    let p2 := (splitNL3 content).filter (fun p => !(pyStrip p).isEmpty)
    if p2.length > 1 then p2
    else if content.length > 3000 then chunk3000 content
    else if !(pyStrip content).isEmpty then [content] else [[]]

/-- A chunk that is non-blank: it has at least one non-whitespace
character. -/
def nonBlankChunk (p : List Char) : Bool :=
  p.any (fun c => !isPySpace c)

/-- Claim C2 as amended: the step-1 and step-2 conditions count all raw
chunks of the split (blank ones included), blank chunks are dropped only
afterwards, and step 2 splits on each non-overlapping literal occurrence
of exactly three consecutive newlines. -/
def split_into_pages_amended (content : List Char) : List (List Char) :=
  let p1 := splitFF content
  if p1.length > 1 then p1.filter nonBlankChunk
  else
    let p2 := splitNNN content
    if p2.length > 1 then p2.filter nonBlankChunk
    else if content.length > 3000 then chunk3000 content
    else if nonBlankChunk content then [content] else [[]]

/-- The raw (case-preserved) extension of a `pathlib` suffix: the suffix
with its leading dot removed and no other change — what claim C8 calls
"the raw unrecognized extension". -/
def rawExtension (suffix : List Char) : List Char :=
  pyLstripDot suffix

/-! ## Lemmas about the text utilities -/

/-- The head of a `dropWhile` result does not satisfy the predicate. -/
theorem head?_dropWhile_not (p : Char → Bool) :
    ∀ (l : List Char) (c : Char), (l.dropWhile p).head? = some c → p c = false := by
  intro l
  induction l with
  | nil => intro c h; simp at h
  | cons x xs ih =>
    intro c h
    rw [List.dropWhile_cons] at h
    by_cases hx : p x
    · exact ih c (by simpa [hx] using h)
    · simp [hx] at h
      subst h
      simpa using hx

/-- Decomposition of a string around its stripped core: whitespace
prefix, the core, whitespace suffix. -/
theorem pyStrip_decomp (s : List Char) :
    ∃ a b, (∀ c ∈ a, isPySpace c = true) ∧ (∀ c ∈ b, isPySpace c = true) ∧
      s.dropWhile isPySpace = pyStrip s ++ b ∧ s = a ++ (pyStrip s ++ b) := by
  refine ⟨s.takeWhile isPySpace,
    ((s.dropWhile isPySpace).reverse.takeWhile isPySpace).reverse, ?_, ?_, ?_, ?_⟩
  · intro c hc; exact List.mem_takeWhile_imp hc
  · intro c hc
    rw [List.mem_reverse] at hc
    exact List.mem_takeWhile_imp hc
  · conv_lhs => rw [← List.reverse_reverse (s.dropWhile isPySpace)]
    conv_lhs =>
      rw [← List.takeWhile_append_dropWhile (p := isPySpace)
        (l := (s.dropWhile isPySpace).reverse)]
    rw [List.reverse_append, pyStrip]
  · conv_lhs => rw [← List.takeWhile_append_dropWhile (p := isPySpace) (l := s)]
    congr 1
    conv_lhs => rw [← List.reverse_reverse (s.dropWhile isPySpace)]
    conv_lhs =>
      rw [← List.takeWhile_append_dropWhile (p := isPySpace)
        (l := (s.dropWhile isPySpace).reverse)]
    rw [List.reverse_append, pyStrip]

/-- The first character of a stripped string is not whitespace. -/
theorem pyStrip_head_not_space {s : List Char} {c : Char}
    (h : (pyStrip s).head? = some c) : isPySpace c = false := by
  obtain ⟨a, b, _, _, ht, _⟩ := pyStrip_decomp s
  apply head?_dropWhile_not isPySpace s c
  rw [ht]
  cases hs : pyStrip s with
  | nil => rw [hs] at h; simp at h
  | cons x r =>
    rw [hs] at h
    simp at h ⊢
    exact h

/-- The last character of a stripped string is not whitespace. -/
theorem pyStrip_getLast_not_space {s : List Char} {c : Char}
    (h : (pyStrip s).getLast? = some c) : isPySpace c = false := by
  rw [pyStrip, List.getLast?_reverse] at h
  exact head?_dropWhile_not isPySpace _ c h

/-- A string is all whitespace iff it strips to the empty string. -/
theorem pyStrip_eq_nil_iff (s : List Char) :
    pyStrip s = [] ↔ ∀ c ∈ s, isPySpace c = true := by
  constructor
  · intro h
    obtain ⟨a, b, ha, hb, _, hs⟩ := pyStrip_decomp s
    rw [h] at hs
    intro c hc
    rw [hs] at hc
    simp at hc
    rcases hc with hc | hc
    · exact ha c hc
    · exact hb c hc
  · intro h
    rw [pyStrip]
    have : s.dropWhile isPySpace = [] := List.dropWhile_eq_nil_iff.mpr h
    simp [this, List.dropWhile]

/-- On all-whitespace input, `pyWordsAux` only flushes its accumulator. -/
theorem pyWordsAux_all_space :
    ∀ (t : List Char), (∀ c ∈ t, isPySpace c = true) →
      ∀ acc, pyWordsAux t acc = if acc.isEmpty then [] else [acc.reverse] := by
  intro t
  induction t with
  | nil => intro _ acc; rfl
  | cons x xs ih =>
    intro h acc
    have hx : isPySpace x = true := h x (by simp)
    rw [pyWordsAux, if_pos hx, ih (fun c hc => h c (by simp [hc])) []]
    simp

/-- Appending trailing whitespace does not change the word split. -/
theorem pyWordsAux_append_space {t : List Char} (ht : ∀ c ∈ t, isPySpace c = true) :
    ∀ (l : List Char) (acc : List Char), pyWordsAux (l ++ t) acc = pyWordsAux l acc := by
  intro l
  induction l with
  | nil =>
    intro acc
    rw [List.nil_append, pyWordsAux_all_space t ht acc]
    rfl
  | cons x xs ih =>
    intro acc
    rw [List.cons_append, pyWordsAux, pyWordsAux]
    by_cases hx : isPySpace x
    · rw [if_pos hx, if_pos hx, ih []]
    · rw [if_neg hx, if_neg hx, ih (x :: acc)]

/-- Prepending leading whitespace does not change the word split. -/
theorem pyWordsAux_space_prepend {t : List Char} (ht : ∀ c ∈ t, isPySpace c = true) :
    ∀ (l : List Char), pyWordsAux (t ++ l) [] = pyWordsAux l [] := by
  induction t with
  | nil => intro l; rfl
  | cons x xs ih =>
    intro l
    have hx : isPySpace x = true := ht x (by simp)
    rw [List.cons_append, pyWordsAux, if_pos hx,
      ih (fun c hc => ht c (by simp [hc])) l]
    simp

/-- Stripping does not change the word split (Python
`text.split() == text.strip().split()`). -/
theorem pyWords_pyStrip (s : List Char) : pyWords (pyStrip s) = pyWords s := by
  obtain ⟨a, b, ha, hb, _, hs⟩ := pyStrip_decomp s
  rw [pyWords, pyWords]
  conv_rhs => rw [hs]
  rw [← List.append_assoc]
  rw [pyWordsAux_append_space hb (a ++ pyStrip s) []]
  rw [pyWordsAux_space_prepend ha (pyStrip s)]

/-- `pyWordsAux` never returns `[]` when its accumulator is non-empty. -/
theorem pyWordsAux_ne_nil_of_acc :
    ∀ (l acc : List Char), acc ≠ [] → pyWordsAux l acc ≠ [] := by
  intro l
  induction l with
  | nil =>
    intro acc hacc
    rw [pyWordsAux, if_neg (by simpa using hacc)]
    simp
  | cons x xs ih =>
    intro acc hacc
    rw [pyWordsAux]
    by_cases hx : isPySpace x
    · rw [if_pos hx, if_neg (by simpa using hacc)]
      simp
    · rw [if_neg hx]
      exact ih (x :: acc) (by simp)

/-- `pyWordsAux` never returns `[]` when the input still holds a
non-whitespace character. -/
theorem pyWordsAux_ne_nil_of_mem :
    ∀ (l : List Char) (c : Char), c ∈ l → isPySpace c = false →
      ∀ acc, pyWordsAux l acc ≠ [] := by
  intro l
  induction l with
  | nil => intro c hc; simp at hc
  | cons x xs ih =>
    intro c hc hw acc
    rw [pyWordsAux]
    by_cases hx : isPySpace x
    · rw [if_pos hx]
      have hcx : c ∈ xs := by
        rcases List.mem_cons.mp hc with h | h
        · subst h; rw [hx] at hw; cases hw
        · exact h
      intro habs
      exact ih c hcx hw [] (List.append_eq_nil.mp habs).2
    · rw [if_neg hx]
      exact pyWordsAux_ne_nil_of_acc xs (x :: acc) (by simp)

/-- The word split is non-empty iff the string holds a non-whitespace
character. -/
theorem pyWords_ne_nil_of_mem {s : List Char} {c : Char} (hc : c ∈ s)
    (hw : isPySpace c = false) : pyWords s ≠ [] :=
  pyWordsAux_ne_nil_of_mem s c hc hw []

/-- Emptiness of the stripped string, as the Boolean `any` test for a
non-whitespace character. -/
theorem pyStrip_isEmpty_eq (p : List Char) :
    (pyStrip p).isEmpty = !p.any (fun c => !isPySpace c) := by
  cases h : p.any (fun c => !isPySpace c) with
  | false =>
    have hall : ∀ c ∈ p, isPySpace c = true := by
      intro c hc
      have := List.any_eq_false.mp h c hc
      simpa using this
    rw [(pyStrip_eq_nil_iff p).mpr hall]
    rfl
  | true =>
    obtain ⟨c, hc, hcw⟩ := List.any_eq_true.mp h
    have hcw' : isPySpace c = false := by simpa using hcw
    have hne : pyStrip p ≠ [] := by
      intro habs
      have := (pyStrip_eq_nil_iff p).mp habs c hc
      rw [this] at hcw'
      cases hcw'
    cases hp : pyStrip p with
    | nil => exact absurd hp hne
    | cons y ys => rfl

/-- If the content holds no form feed, the form-feed split is a no-op. -/
theorem splitFF_no_ff : ∀ {l : List Char}, '\x0c' ∉ l → splitFF l = [l] := by
  intro l
  induction l with
  | nil => intro _; rfl
  | cons c cs ih =>
    intro h
    have hc : (c == '\x0c') = false := by
      simp only [List.mem_cons, not_or] at h
      have : c ≠ '\x0c' := fun he => h.1 he.symm
      simpa using this
    rw [splitFF]
    rw [if_neg (by simp [hc])]
    rw [ih (fun hm => h (List.mem_cons_of_mem c hm))]

/-- If the content holds no three consecutive newlines, the
triple-newline split is a no-op. -/
theorem splitNNN_no_sub :
    ∀ l : List Char, hasSub ['\n', '\n', '\n'] l = false → splitNNN l = [l] := by
  intro l
  induction l using splitNNN.induct with
  | case1 rest ih =>
    intro h
    simp [hasSub, isPre] at h
  | case2 => intro _; rfl
  | case3 c cs hn h0 ih =>
    intro h
    rw [hasSub, Bool.or_eq_false_iff] at h
    rw [ih h.2] at h0
    cases h0
  | case4 c cs hn p ps h4 ih =>
    intro h
    rw [hasSub, Bool.or_eq_false_iff] at h
    rw [splitNNN.eq_3 c cs hn]
    rw [ih h.2]

/-- Concatenating the 3000-character windows reproduces the content. -/
theorem chunk3000_flatten :
    ∀ (n : Nat) (l : List Char), l.length ≤ n → (chunk3000 l).flatten = l := by
  intro n
  induction n with
  | zero =>
    intro l hl
    have : l = [] := by
      cases l with
      | nil => rfl
      | cons c cs => simp at hl
    subst this
    rw [chunk3000]
    rfl
  | succ n ih =>
    intro l hl
    cases l with
    | nil => rw [chunk3000]; rfl
    | cons c cs =>
      have hd : ((c :: cs).drop 3000).length ≤ n := by
        simp only [List.length_drop, List.length_cons]
        simp only [List.length_cons] at hl
        omega
      rw [chunk3000, List.flatten_cons, ih ((c :: cs).drop 3000) hd]
      exact List.take_append_drop 3000 (c :: cs)

/-- The number of 3000-character windows is the ceiling of
`length / 3000`. -/
theorem chunk3000_length :
    ∀ (n : Nat) (l : List Char), l.length ≤ n →
      (chunk3000 l).length = (l.length + 2999) / 3000 := by
  intro n
  induction n with
  | zero =>
    intro l hl
    have : l = [] := by
      cases l with
      | nil => rfl
      | cons c cs => simp at hl
    subst this
    rw [chunk3000]
    rfl
  | succ n ih =>
    intro l hl
    cases l with
    | nil => rw [chunk3000]; rfl
    | cons c cs =>
      have hd : ((c :: cs).drop 3000).length ≤ n := by
        simp only [List.length_drop, List.length_cons]
        simp only [List.length_cons] at hl
        omega
      rw [chunk3000, List.length_cons, ih ((c :: cs).drop 3000) hd]
      simp only [List.length_drop, List.length_cons]
      omega

/-- Every window except possibly the last holds exactly 3000
characters. -/
theorem chunk3000_dropLast :
    ∀ (n : Nat) (l : List Char), l.length ≤ n →
      ∀ t ∈ (chunk3000 l).dropLast, t.length = 3000 := by
  intro n
  induction n with
  | zero =>
    intro l hl
    have : l = [] := by
      cases l with
      | nil => rfl
      | cons c cs => simp at hl
    subst this
    intro t ht
    rw [chunk3000] at ht
    simp at ht
  | succ n ih =>
    intro l hl
    cases l with
    | nil => intro t ht; rw [chunk3000] at ht; simp at ht
    | cons c cs =>
      have hd : ((c :: cs).drop 3000).length ≤ n := by
        simp only [List.length_drop, List.length_cons]
        simp only [List.length_cons] at hl
        omega
      rw [chunk3000]
      cases hrest : chunk3000 ((c :: cs).drop 3000) with
      | nil => intro t ht; simp [hrest] at ht
      | cons r rs =>
        have hdrop : (c :: cs).drop 3000 ≠ [] := by
          intro habs
          rw [habs, chunk3000] at hrest
          cases hrest
        have hlen : 3000 < (c :: cs).length := by
          by_contra hle
          exact hdrop (List.drop_eq_nil_iff.mpr (by omega))
        intro t ht
        rw [List.dropLast_cons₂] at ht
        rcases List.mem_cons.mp ht with h | h
        · subst h
          rw [List.length_take]
          omega
        · rw [← hrest] at h
          exact ih ((c :: cs).drop 3000) hd t h

/-- Under the hypotheses of the fixed-window case, the TXT segmentation
is exactly the 3000-character windowing. -/
theorem split_into_pages_eq_chunk {content : List Char}
    (h1 : '\x0c' ∉ content)
    (h2 : hasSub ['\n', '\n', '\n'] content = false)
    (h3 : content.length > 3000) :
    TXTProcessor.split_into_pages content = chunk3000 content := by
  rw [TXTProcessor.split_into_pages]
  simp only [splitFF_no_ff h1, splitNNN_no_sub content h2]
  simp [h3]

/-- The head of a non-empty left part rules the head of an append. -/
theorem head?_append_left {a : List Char} (b : List Char) (h : a ≠ []) :
    (a ++ b).head? = a.head? := by
  cases a with
  | nil => exact absurd rfl h
  | cons x xs => rfl

/-- A page text in good shape: no whitespace at either end, and words
present whenever the text is non-empty. -/
def GoodPage (pg : List Char) : Prop :=
  (∀ c, pg.head? = some c → isPySpace c = false) ∧
    (∀ c, pg.getLast? = some c → isPySpace c = false) ∧
    (pg ≠ [] → pyWords pg ≠ [])

/-- A buffered paragraph text: non-empty and stripped at both ends. -/
def CurOK (t : List Char) : Prop :=
  t ≠ [] ∧ (∀ c, t.head? = some c → isPySpace c = false) ∧
    (∀ c, t.getLast? = some c → isPySpace c = false)

/-- The empty page is in good shape (vacuously). -/
theorem goodPage_nil : GoodPage [] := by
  refine ⟨?_, ?_, ?_⟩
  · intro c h; simp at h
  · intro c h; simp at h
  · intro h; exact absurd rfl h

/-- A stripped, non-empty string is an acceptable buffer entry. -/
theorem curOK_pyStrip {p : List Char} (h : pyStrip p ≠ []) : CurOK (pyStrip p) :=
  ⟨h, fun _ hc => pyStrip_head_not_space hc, fun _ hc => pyStrip_getLast_not_space hc⟩

/-- Joining acceptable buffer entries with newlines yields a non-empty
page in good shape. -/
theorem joinNL_good : ∀ (cur : List (List Char)), cur ≠ [] →
    (∀ t ∈ cur, CurOK t) → joinNL cur ≠ [] ∧ GoodPage (joinNL cur) := by
  intro cur
  induction cur with
  | nil => intro h; exact absurd rfl h
  | cons x rest ih =>
    intro _ hall
    have hx : CurOK x := hall x (by simp)
    obtain ⟨hxne, hxh, hxl⟩ := hx
    obtain ⟨cx, hcx⟩ : ∃ c, x.head? = some c := by
      cases x with
      | nil => exact absurd rfl hxne
      | cons a as => exact ⟨a, rfl⟩
    have hcxw : isPySpace cx = false := hxh cx hcx
    have hcxmem : cx ∈ x := by
      cases x with
      | nil => exact absurd rfl hxne
      | cons a as => simp at hcx; simp [hcx]
    cases rest with
    | nil =>
      refine ⟨hxne, hxh, hxl, fun _ => ?_⟩
      exact pyWords_ne_nil_of_mem hcxmem hcxw
    | cons y r =>
      have hJ := ih (by simp) (fun t ht => hall t (by simp [ht]))
      have hJne := hJ.1
      have hJl := hJ.2.2.1
      rw [joinNL]
      refine ⟨by simp, ?_, ?_, fun _ => ?_⟩
      · intro c hc
        rw [head?_append_left _ hxne, hcx] at hc
        injection hc with hc
        rw [← hc]
        exact hcxw
      · intro c hc
        rw [List.getLast?_append_of_ne_nil x (by simp)] at hc
        have : ('\n' :: joinNL (y :: r)).getLast? = (joinNL (y :: r)).getLast? := by
          have := List.getLast?_append_of_ne_nil ['\n'] hJne
          simpa using this
        rw [this] at hc
        exact hJl c hc
      · exact pyWords_ne_nil_of_mem (by simp [hcxmem]) hcxw

/-- Every page the grouping loop emits is in good shape, provided the
pages already emitted and the pending buffer are. -/
theorem groupAux_good : ∀ (ps pages current : List (List Char)),
    (∀ pg ∈ pages, GoodPage pg) → (∀ t ∈ current, CurOK t) →
    ∀ pg ∈ DOCXProcessor.groupAux ps pages current, GoodPage pg := by
  intro ps
  induction ps with
  | nil =>
    intro pages current hp hc pg hpg
    rw [DOCXProcessor.groupAux] at hpg
    by_cases hcur : current.isEmpty
    · rw [if_pos hcur] at hpg
      exact hp pg hpg
    · rw [if_neg hcur] at hpg
      rcases List.mem_append.mp hpg with h | h
      · exact hp pg h
      · have : pg = joinNL current := by simpa using h
        subst this
        exact (joinNL_good current (by simpa using hcur) hc).2
  | cons p ps ih =>
    intro pages current hp hc pg hpg
    rw [DOCXProcessor.groupAux] at hpg
    by_cases ht : (pyStrip p).isEmpty
    · rw [ht] at hpg
      rw [if_neg (by simp)] at hpg
      by_cases hcur : current.isEmpty
      · rw [if_neg (by simp [hcur])] at hpg
        exact ih pages current hp hc pg hpg
      · rw [if_pos (by simpa using hcur)] at hpg
        refine ih (pages ++ [joinNL current]) [] ?_ (by simp) pg hpg
        intro q hq
        rcases List.mem_append.mp hq with h | h
        · exact hp q h
        · have : q = joinNL current := by simpa using h
          subst this
          exact (joinNL_good current (by simpa using hcur) hc).2
    · simp only [Bool.not_eq_true] at ht
      rw [ht] at hpg
      rw [if_pos (by simp)] at hpg
      refine ih pages (current ++ [pyStrip p]) hp ?_ pg hpg
      intro q hq
      rcases List.mem_append.mp hq with h | h
      · exact hc q h
      · have : q = pyStrip p := by simpa using h
        subst this
        exact curOK_pyStrip (by simpa using ht)

/-- The grouping loop emits at least one page once anything has been
buffered or emitted. -/
theorem groupAux_ne_nil : ∀ (ps pages current : List (List Char)),
    pages ≠ [] ∨ current ≠ [] → DOCXProcessor.groupAux ps pages current ≠ [] := by
  intro ps
  induction ps with
  | nil =>
    intro pages current h
    rw [DOCXProcessor.groupAux]
    by_cases hcur : current.isEmpty
    · rw [if_pos hcur]
      rcases h with h | h
      · exact h
      · exact absurd (by simpa using hcur) h
    · rw [if_neg hcur]
      simp
  | cons p ps ih =>
    intro pages current h
    rw [DOCXProcessor.groupAux]
    by_cases ht : (pyStrip p).isEmpty
    · rw [ht, if_neg (by simp)]
      by_cases hcur : current.isEmpty
      · rw [if_neg (by simp [hcur])]
        exact ih pages current h
      · rw [if_pos (by simpa using hcur)]
        exact ih _ [] (Or.inl (by simp))
    · simp only [Bool.not_eq_true] at ht
      rw [ht, if_pos (by simp)]
      exact ih pages _ (Or.inr (by simp))

/-- If the grouping loop emitted nothing from empty initial state, every
paragraph was blank. -/
theorem groupAux_nil_blank : ∀ (ps : List (List Char)),
    DOCXProcessor.groupAux ps [] [] = [] → ∀ p ∈ ps, pyStrip p = [] := by
  intro ps
  induction ps with
  | nil => intro _ p hp; simp at hp
  | cons q qs ih =>
    intro h p hp
    rw [DOCXProcessor.groupAux] at h
    by_cases ht : (pyStrip q).isEmpty
    · rw [ht, if_neg (by simp), if_neg (by simp)] at h
      rcases List.mem_cons.mp hp with hq | hmem
      · rw [hq]
        simpa using ht
      · exact ih h p hmem
    · simp only [Bool.not_eq_true] at ht
      rw [ht, if_pos (by simp)] at h
      exact absurd h (groupAux_ne_nil qs [] _ (Or.inr (by simp)))

/-- Every page text `_group_into_pages` returns is in good shape. -/
theorem group_into_pages_good (paras : List (List Char)) :
    ∀ pg ∈ DOCXProcessor.group_into_pages paras, GoodPage pg := by
  intro pg hpg
  simp only [DOCXProcessor.group_into_pages] at hpg
  by_cases hga : DOCXProcessor.groupAux paras [] [] = []
  · rw [hga] at hpg
    simp only [List.isEmpty_nil, Bool.true_and] at hpg
    by_cases hpar : paras.isEmpty
    · rw [hpar] at hpg
      simp at hpg
      rw [hpg]
      exact goodPage_nil
    · have hfil : paras.filter (fun p => !(pyStrip p).isEmpty) = [] := by
        rw [List.filter_eq_nil_iff]
        intro a ha
        simp [groupAux_nil_blank paras hga a ha]
      simp only [Bool.not_eq_true] at hpar
      simp [hpar, hfil, joinNL] at hpg
      rw [hpg]
      exact goodPage_nil
  · have h1 : (DOCXProcessor.groupAux paras [] []).isEmpty = false := by
      cases hl : (DOCXProcessor.groupAux paras [] []).isEmpty
      · rfl
      · exact absurd (List.isEmpty_iff.mp hl) hga
    rw [h1] at hpg
    simp only [Bool.false_and, Bool.false_eq_true, if_false, h1] at hpg
    exact groupAux_good paras [] [] (by simp) (by simp) pg hpg

/-! ## Helper predicates and lemmas for the claims -/

/-- The success/error/pages wellformedness every result satisfies:
`success` iff no error message, and failures carry no pages. -/
def ResultWF (r : ExtractionResult) : Prop :=
  (r.success = true ↔ r.error_message = none) ∧ (r.success = false → r.pages = [])

/-- Replace a `ProcessingOptions`' `max_pages` field. -/
def ProcessingOptions.withMax (o : ProcessingOptions) (m : Option Int) :
    ProcessingOptions :=
  ⟨m, o.preserve_formatting, o.extract_tables, o.extract_metadata, o.encoding,
    o.error_handling⟩

/-- TXT results are wellformed. -/
theorem txt_resultWF (env : Env) (fname : List Char) (fexists : Bool) (fsize : Nat)
    (rd : Except (List Char) (List Char)) (options : ProcessingOptions) :
    ResultWF (TXTProcessor.extract_text env fname fexists fsize rd options) := by
  cases rd <;> constructor <;> simp [TXTProcessor.extract_text]

/-- PDF results are wellformed. -/
theorem pdf_resultWF (env : Env) (fname : List Char) (fexists : Bool) (fsize : Nat)
    (plumber : Except (List Char) (List PdfPage))
    (mupdf : Except (List Char) (List (List Char))) (options : ProcessingOptions) :
    ResultWF (PDFProcessor.extract_text env fname fexists fsize plumber mupdf options) := by
  cases plumber with
  | ok pdf =>
    constructor <;>
      simp [PDFProcessor.extract_text, PDFProcessor.extract_with_pdfplumber]
  | error e =>
    cases mupdf <;> constructor <;>
      simp [PDFProcessor.extract_text, PDFProcessor.extract_with_pymupdf]

/-- DOCX results are wellformed. -/
theorem docx_resultWF (env : Env) (fname : List Char) (fexists : Bool) (fsize : Nat)
    (dres : Except (List Char) (List (List Char))) (options : ProcessingOptions) :
    ResultWF (DOCXProcessor.extract_text env fname fexists fsize dres options) := by
  cases dres <;> constructor <;> simp [DOCXProcessor.extract_text]

/-- Engine results are wellformed. -/
theorem engine_resultWF (env : Env) (f : FileInput)
    (options : Option ProcessingOptions) :
    ResultWF (DocParseEngine.extract_text env f options) := by
  rw [DocParseEngine.extract_text.eq_def]
  by_cases hf : f.fexists
  · simp only [hf, if_true]
    cases DocumentType.ofExtension (pyLower (pyLstripDot f.suffix)) with
    | none => constructor <;> simp
    | some dt =>
      cases dt with
      | pdf => exact pdf_resultWF env f.name true f.size f.pdfPlumber f.pdfMupdf _
      | txt => exact txt_resultWF env f.name true f.size f.txtRead _
      | docx => exact docx_resultWF env f.name true f.size f.docxParas _
  · simp only [Bool.not_eq_true] at hf
    simp only [hf, Bool.false_eq_true, if_false]
    constructor <;> simp

/-! ## Claim theorems -/

/-- C1 (counterexample): a TXT file whose content is a single form feed
produces a successful result with zero pages, refuting
`success == false ⇔ pages == []`. -/
theorem C1_counterexample :
    (TXTProcessor.extract_text ⟨[], 0⟩ "a.txt".data true 1 (.ok ['\x0c'])
        defaultOptions).success = true ∧
    (TXTProcessor.extract_text ⟨[], 0⟩ "a.txt".data true 1 (.ok ['\x0c'])
        defaultOptions).pages = [] := by
  constructor <;> rfl

/-- C1 (amended): for every result of any strategy or of the engine,
`success == true` iff `error_message` is null, and `success == false`
implies `pages` is empty; a successful result may nonetheless have zero
pages (e.g. TXT content consisting only of form feeds). -/
theorem C1_success_error_pages (env : Env) (fname : List Char) (fexists : Bool)
    (fsize : Nat) (rd : Except (List Char) (List Char))
    (plumber : Except (List Char) (List PdfPage))
    (mupdf : Except (List Char) (List (List Char)))
    (dres : Except (List Char) (List (List Char))) (f : FileInput)
    (engineOptions : Option ProcessingOptions) (options : ProcessingOptions) :
    ResultWF (TXTProcessor.extract_text env fname fexists fsize rd options) ∧
    ResultWF (PDFProcessor.extract_text env fname fexists fsize plumber mupdf options) ∧
    ResultWF (DOCXProcessor.extract_text env fname fexists fsize dres options) ∧
    ResultWF (DocParseEngine.extract_text env f engineOptions) :=
  ⟨txt_resultWF env fname fexists fsize rd options,
    pdf_resultWF env fname fexists fsize plumber mupdf options,
    docx_resultWF env fname fexists fsize dres options,
    engine_resultWF env f engineOptions⟩

/-- C1 (witness): instantiating the amended invariant on a failing TXT
read shows the failure's pages are empty. -/
theorem C1_witness :
    (TXTProcessor.extract_text ⟨[], 0⟩ "a.txt".data true 1 (.error "boom".data)
        defaultOptions).pages = [] :=
  (C1_success_error_pages ⟨[], 0⟩ "a.txt".data true 1 (.error "boom".data)
      (.error []) (.error []) (.error [])
      ⟨[], false, [], 0, .error [], .error [], .error [], .error []⟩
      none defaultOptions).1.2 rfl

/-- C5: when the pdfplumber primary raises and the pymupdf fallback also
raises, the PDF strategy returns a failure result with empty pages,
method tag `failed`, zero page counts, and the primary error's
description (for every fallback error). -/
theorem C5_pdf_double_failure (env : Env) (fname : List Char) (fexists : Bool)
    (fsize : Nat) (e1 e2 : List Char) (options : ProcessingOptions) :
    (PDFProcessor.extract_text env fname fexists fsize (.error e1) (.error e2)
        options).success = false ∧
    (PDFProcessor.extract_text env fname fexists fsize (.error e1) (.error e2)
        options).pages = [] ∧
    (PDFProcessor.extract_text env fname fexists fsize (.error e1) (.error e2)
        options).metadata.extraction_method = "failed".data ∧
    (PDFProcessor.extract_text env fname fexists fsize (.error e1) (.error e2)
        options).metadata.total_pages = 0 ∧
    (PDFProcessor.extract_text env fname fexists fsize (.error e1) (.error e2)
        options).metadata.pages_processed = 0 ∧
    (PDFProcessor.extract_text env fname fexists fsize (.error e1) (.error e2)
        options).error_message = some ("PDF extraction failed: ".data ++ e1) :=
  ⟨rfl, rfl, rfl, rfl, rfl, rfl⟩

/-- C7: on a nonexistent path the engine immediately returns, for any
strategy inputs and options, the fixed failure result with
`error_message = "File not found"`, `document_type = "unknown"`,
zero size and counts, and zero processing time. -/
theorem C7_engine_not_found (env : Env) (name suffix : List Char) (size : Nat)
    (t : Except (List Char) (List Char)) (p : Except (List Char) (List PdfPage))
    (m : Except (List Char) (List (List Char)))
    (d : Except (List Char) (List (List Char)))
    (options : Option ProcessingOptions) :
    DocParseEngine.extract_text env ⟨name, false, suffix, size, t, p, m, d⟩ options =
      ⟨⟨name, 0, 0, 0, env.timestamp, "failed".data, 0, "unknown".data⟩, [], false,
        some "File not found".data⟩ :=
  rfl

/-- C9: every library error is caught at the strategy boundary and
converted into a structured failure result (with the strategy's error
prefix), never propagated: shown for the TXT read, the DOCX open, and
the PDF primary/fallback pair. -/
theorem C9_errors_converted (env : Env) (fname : List Char) (fexists : Bool)
    (fsize : Nat) (e e2 : List Char) (options : ProcessingOptions) :
    (TXTProcessor.extract_text env fname fexists fsize (.error e) options =
      ⟨TXTProcessor.create_error_metadata env fname fexists fsize, [], false,
        some ("TXT extraction failed: ".data ++ e)⟩) ∧
    (DOCXProcessor.extract_text env fname fexists fsize (.error e) options =
      ⟨DOCXProcessor.create_error_metadata env fname fexists fsize, [], false,
        some ("DOCX extraction failed: ".data ++ e)⟩) ∧
    (PDFProcessor.extract_text env fname fexists fsize (.error e) (.error e2) options =
      ⟨PDFProcessor.create_error_metadata env fname fexists fsize, [], false,
        some ("PDF extraction failed: ".data ++ e)⟩) ∧
    (TXTProcessor.extract_text env fname fexists fsize (.error e) options).success = false ∧
    (DOCXProcessor.extract_text env fname fexists fsize (.error e) options).success = false ∧
    (PDFProcessor.extract_text env fname fexists fsize (.error e) (.error e2)
        options).success = false :=
  ⟨rfl, rfl, rfl, rfl, rfl, rfl⟩

/-- C10: `max_pages = 0` is falsy in Python's `or`, so every strategy
behaves exactly as if `max_pages` were unset: identical results, and on
success all identified pages are processed with none truncated. -/
theorem C10_max_pages_zero (env : Env) (fname : List Char) (fexists : Bool)
    (fsize : Nat) (rd : Except (List Char) (List Char))
    (plumber : Except (List Char) (List PdfPage))
    (mupdf : Except (List Char) (List (List Char)))
    (dres : Except (List Char) (List (List Char)))
    (content : List Char) (pdf : List PdfPage) (paras : List (List Char))
    (options : ProcessingOptions) :
    (TXTProcessor.extract_text env fname fexists fsize rd (options.withMax (some 0)) =
      TXTProcessor.extract_text env fname fexists fsize rd (options.withMax none)) ∧
    (PDFProcessor.extract_text env fname fexists fsize plumber mupdf
        (options.withMax (some 0)) =
      PDFProcessor.extract_text env fname fexists fsize plumber mupdf
        (options.withMax none)) ∧
    (DOCXProcessor.extract_text env fname fexists fsize dres
        (options.withMax (some 0)) =
      DOCXProcessor.extract_text env fname fexists fsize dres
        (options.withMax none)) ∧
    ((TXTProcessor.extract_text env fname fexists fsize (.ok content)
        (options.withMax (some 0))).metadata.pages_processed =
      ((TXTProcessor.extract_text env fname fexists fsize (.ok content)
        (options.withMax (some 0))).metadata.total_pages : Int)) ∧
    ((TXTProcessor.extract_text env fname fexists fsize (.ok content)
        (options.withMax (some 0))).pages.length =
      (TXTProcessor.extract_text env fname fexists fsize (.ok content)
        (options.withMax (some 0))).metadata.total_pages) ∧
    ((PDFProcessor.extract_text env fname fexists fsize (.ok pdf) mupdf
        (options.withMax (some 0))).metadata.pages_processed =
      ((PDFProcessor.extract_text env fname fexists fsize (.ok pdf) mupdf
        (options.withMax (some 0))).metadata.total_pages : Int)) ∧
    ((PDFProcessor.extract_text env fname fexists fsize (.ok pdf) mupdf
        (options.withMax (some 0))).pages.length =
      (PDFProcessor.extract_text env fname fexists fsize (.ok pdf) mupdf
        (options.withMax (some 0))).metadata.total_pages) ∧
    ((DOCXProcessor.extract_text env fname fexists fsize (.ok paras)
        (options.withMax (some 0))).metadata.pages_processed =
      ((DOCXProcessor.extract_text env fname fexists fsize (.ok paras)
        (options.withMax (some 0))).metadata.total_pages : Int)) ∧
    ((DOCXProcessor.extract_text env fname fexists fsize (.ok paras)
        (options.withMax (some 0))).pages.length =
      (DOCXProcessor.extract_text env fname fexists fsize (.ok paras)
        (options.withMax (some 0))).metadata.total_pages) := by
  refine ⟨rfl, rfl, rfl, ?_, ?_, ?_, ?_, ?_, ?_⟩
  · simp [TXTProcessor.extract_text, pyOrInt, ProcessingOptions.withMax]
  · simp [TXTProcessor.extract_text, pyOrInt, ProcessingOptions.withMax]
  · simp [PDFProcessor.extract_text, PDFProcessor.extract_with_pdfplumber, pyOrInt,
      ProcessingOptions.withMax]
  · simp [PDFProcessor.extract_text, PDFProcessor.extract_with_pdfplumber, pyOrInt,
      ProcessingOptions.withMax]
  · simp [DOCXProcessor.extract_text, pyOrInt, ProcessingOptions.withMax]
  · simp [DOCXProcessor.extract_text, pyOrInt, ProcessingOptions.withMax]

/-- C2 (counterexample): the claimed segmentation disagrees with the code
both on content where the form-feed split has a single non-blank chunk
(the code still uses it) and on four consecutive newlines (the code
splits the literal three, leaving the fourth attached). -/
theorem C2_counterexample :
    TXTProcessor.split_into_pages "a\x0c".data ≠
      split_into_pages_claim "a\x0c".data ∧
    TXTProcessor.split_into_pages "a\n\n\n\nb".data ≠
      split_into_pages_claim "a\n\n\n\nb".data := by
  constructor <;> decide

/-- C2 (amended): the TXT segmentation tries form-feed split, then the
literal triple-newline split, then fixed windows, then whole content,
where the first two steps are used when the raw split (blank chunks
included) has more than one chunk, blank chunks are then dropped, and
otherwise blank content yields exactly one empty chunk. -/
theorem C2_amended_split (content : List Char) :
    TXTProcessor.split_into_pages content = split_into_pages_amended content := by
  have hnb : ∀ p : List Char, (!(pyStrip p).isEmpty) = nonBlankChunk p := by
    intro p
    rw [pyStrip_isEmpty_eq, nonBlankChunk, Bool.not_not]
  rw [TXTProcessor.split_into_pages, split_into_pages_amended]
  simp only [hnb]

/-- No occurrence of a pattern whose first character is absent. -/
theorem hasSub_eq_false_of_head_not_mem (c : Char) (cs : List Char) :
    ∀ l : List Char, c ∉ l → hasSub (c :: cs) l = false := by
  intro l
  induction l with
  | nil => intro _; rfl
  | cons x xs ih =>
    intro h
    have hcx : (c == x) = false := by
      simp only [List.mem_cons, not_or] at h
      simpa using h.1
    rw [hasSub, isPre, hcx]
    simpa using ih (fun hm => h (List.mem_cons_of_mem x hm))

/-- C3: on content longer than 3000 characters with no form feed and no
three consecutive newlines, the TXT segmentation returns exactly
`ceil(length / 3000)` chunks (`(length + 2999) / 3000` in `Nat`), every
chunk but the last has 3000 characters, and concatenation restores the
content. -/
theorem C3_fixed_window (content : List Char)
    (h1 : '\x0c' ∉ content)
    (h2 : hasSub ['\n', '\n', '\n'] content = false)
    (h3 : content.length > 3000) :
    (TXTProcessor.split_into_pages content).length =
      (content.length + 2999) / 3000 ∧
    (∀ t ∈ (TXTProcessor.split_into_pages content).dropLast, t.length = 3000) ∧
    (TXTProcessor.split_into_pages content).flatten = content := by
  rw [split_into_pages_eq_chunk h1 h2 h3]
  exact ⟨chunk3000_length content.length content le_rfl,
    chunk3000_dropLast content.length content le_rfl,
    chunk3000_flatten content.length content le_rfl⟩

/-- C3 (witness): 3001 letters `a` yield two windows, 3000 + 1. -/
theorem C3_witness :
    ('\x0c' ∉ List.replicate 3001 'a') ∧
    (hasSub ['\n', '\n', '\n'] (List.replicate 3001 'a') = false) ∧
    ((List.replicate 3001 'a').length > 3000) ∧
    ((TXTProcessor.split_into_pages (List.replicate 3001 'a')).length =
        ((List.replicate 3001 'a').length + 2999) / 3000 ∧
      (∀ t ∈ (TXTProcessor.split_into_pages (List.replicate 3001 'a')).dropLast,
        t.length = 3000) ∧
      (TXTProcessor.split_into_pages (List.replicate 3001 'a')).flatten =
        List.replicate 3001 'a') :=
  have h1 : '\x0c' ∉ List.replicate 3001 'a' := by
    rw [List.mem_replicate]
    rintro ⟨-, h⟩
    exact absurd h (by decide)
  have h2 : hasSub ['\n', '\n', '\n'] (List.replicate 3001 'a') = false :=
    hasSub_eq_false_of_head_not_mem '\n' ['\n', '\n'] (List.replicate 3001 'a') (by
      rw [List.mem_replicate]
      rintro ⟨-, h⟩
      exact absurd h (by decide))
  have h3 : (List.replicate 3001 'a').length > 3000 := by
    rw [List.length_replicate]
    omega
  ⟨h1, h2, h3, C3_fixed_window (List.replicate 3001 'a') h1 h2 h3⟩

/-- C8 (counterexample): for a file named `report.XYZ` the engine stores
the lowercased extension `xyz` as `document_type`, not the raw `XYZ`. -/
theorem C8_counterexample :
    (DocParseEngine.extract_text ⟨[], 0⟩
        ⟨"report.XYZ".data, true, ".XYZ".data, 5, .error [], .error [], .error [],
          .error []⟩ none).metadata.document_type = "xyz".data ∧
    rawExtension ".XYZ".data = "XYZ".data ∧
    (DocParseEngine.extract_text ⟨[], 0⟩
        ⟨"report.XYZ".data, true, ".XYZ".data, 5, .error [], .error [], .error [],
          .error []⟩ none).metadata.document_type ≠ rawExtension ".XYZ".data := by
  refine ⟨by decide, by decide, by decide⟩

/-- C8 (amended): for every existing file whose extension, lowercased and
with leading dots stripped, is none of pdf, txt, docx, the engine
returns, without invoking any strategy, the failure result whose
`document_type` is that lowercased extension (so `report.xyz` yields
`xyz`, while `report.XYZ` also yields `xyz`). -/
theorem C8_unsupported_extension (env : Env) (f : FileInput)
    (options : Option ProcessingOptions)
    (hex : f.fexists = true)
    (hns : pyLower (pyLstripDot f.suffix) ∉
      [("pdf".data : List Char), "txt".data, "docx".data]) :
    DocParseEngine.extract_text env f options =
      ⟨⟨f.name, f.size, 0, 0, env.timestamp, "failed".data, 0,
          pyLower (pyLstripDot f.suffix)⟩, [], false,
        some ("Unsupported file type: ".data ++ pyLower (pyLstripDot f.suffix))⟩ := by
  have h1 : pyLower (pyLstripDot f.suffix) ≠ "pdf".data :=
    fun h => hns (by rw [h]; simp)
  have h2 : pyLower (pyLstripDot f.suffix) ≠ "txt".data :=
    fun h => hns (by rw [h]; simp)
  have h3 : pyLower (pyLstripDot f.suffix) ≠ "docx".data :=
    fun h => hns (by rw [h]; simp)
  have hofe : DocumentType.ofExtension (pyLower (pyLstripDot f.suffix)) = none := by
    rw [DocumentType.ofExtension, if_neg h1, if_neg h2, if_neg h3]
  rw [DocParseEngine.extract_text.eq_def]
  simp only [hex, if_true, hofe]

/-- C8 (witness): the amended claim at a file `report.xyz`. -/
theorem C8_witness :
    ((⟨"report.xyz".data, true, ".xyz".data, 5, .error [], .error [], .error [],
        .error []⟩ : FileInput).fexists = true) ∧
    (pyLower (pyLstripDot (".xyz".data)) ∉
      [("pdf".data : List Char), "txt".data, "docx".data]) ∧
    DocParseEngine.extract_text ⟨[], 0⟩
        ⟨"report.xyz".data, true, ".xyz".data, 5, .error [], .error [], .error [],
          .error []⟩ none =
      ⟨⟨"report.xyz".data, 5, 0, 0, [], "failed".data, 0,
          pyLower (pyLstripDot (".xyz".data))⟩, [], false,
        some ("Unsupported file type: ".data ++ pyLower (pyLstripDot (".xyz".data)))⟩ :=
  ⟨rfl, by decide,
    C8_unsupported_extension ⟨[], 0⟩
      ⟨"report.xyz".data, true, ".xyz".data, 5, .error [], .error [], .error [],
        .error []⟩ none rfl (by decide)⟩

/-- The metadata/pages facts claim C4 asserts when `max_pages = m > 0`:
true identified count in `total_pages`, `pages_processed = min m total`,
and as many `PageContent` entries as `pages_processed`. -/
def CappedOK (r : ExtractionResult) (idf : Nat) (m : Int) : Prop :=
  r.metadata.total_pages = idf ∧
  r.metadata.pages_processed = min m (idf : Int) ∧
  ((r.pages.length : Int) = r.metadata.pages_processed)

/-- The facts claim C4 asserts when `max_pages` is unset. -/
def UncappedOK (r : ExtractionResult) (idf : Nat) : Prop :=
  r.metadata.total_pages = idf ∧
  r.metadata.pages_processed = (idf : Int) ∧
  r.pages.length = idf

/-- Discharge `CappedOK` from the shape every success path shares. -/
theorem capped_mk (r : ExtractionResult) (idf : Nat) (o : Option Int) (m : Int)
    (ho : o = some m) (hm : 0 < m)
    (htot : r.metadata.total_pages = idf)
    (hproc : r.metadata.pages_processed = min (pyOrInt o (idf : Int)) (idf : Int))
    (hlen : r.pages.length = (min (pyOrInt o (idf : Int)) (idf : Int)).toNat) :
    CappedOK r idf m := by
  subst ho
  have h0 : pyOrInt (some m) (idf : Int) = m := by
    rw [pyOrInt, if_neg (by omega)]
  rw [h0] at hproc hlen
  refine ⟨htot, hproc, ?_⟩
  rw [hlen, hproc]
  omega

/-- Discharge `UncappedOK` from the shape every success path shares. -/
theorem uncapped_mk (r : ExtractionResult) (idf : Nat) (o : Option Int)
    (ho : o = none)
    (htot : r.metadata.total_pages = idf)
    (hproc : r.metadata.pages_processed = min (pyOrInt o (idf : Int)) (idf : Int))
    (hlen : r.pages.length = (min (pyOrInt o (idf : Int)) (idf : Int)).toNat) :
    UncappedOK r idf := by
  subst ho
  have h0 : pyOrInt none (idf : Int) = (idf : Int) := rfl
  rw [h0, min_self] at hproc hlen
  refine ⟨htot, hproc, ?_⟩
  rw [hlen]
  omega

/-- C4: on every successful extraction (TXT, PDF via either sub-strategy,
DOCX), `total_pages` is the identified count before truncation,
`pages_processed` is `min(max_pages, total_pages)` when `max_pages` is a
positive integer and `total_pages` when unset, and `pages` holds exactly
`pages_processed` entries. -/
theorem C4_pages_capping (env : Env) (fname : List Char) (fexists : Bool)
    (fsize : Nat) (content : List Char) (pdf : List PdfPage) (e : List Char)
    (mupdf : Except (List Char) (List (List Char))) (fdoc : List (List Char))
    (paras : List (List Char)) (options : ProcessingOptions) :
    (∀ m : Int, options.max_pages = some m → 0 < m →
      CappedOK (TXTProcessor.extract_text env fname fexists fsize (.ok content) options)
        (TXTProcessor.split_into_pages content).length m ∧
      CappedOK (PDFProcessor.extract_text env fname fexists fsize (.ok pdf) mupdf options)
        pdf.length m ∧
      CappedOK (PDFProcessor.extract_text env fname fexists fsize (.error e) (.ok fdoc)
        options) fdoc.length m ∧
      CappedOK (DOCXProcessor.extract_text env fname fexists fsize (.ok paras) options)
        (DOCXProcessor.group_into_pages paras).length m) ∧
    (options.max_pages = none →
      UncappedOK (TXTProcessor.extract_text env fname fexists fsize (.ok content) options)
        (TXTProcessor.split_into_pages content).length ∧
      UncappedOK (PDFProcessor.extract_text env fname fexists fsize (.ok pdf) mupdf options)
        pdf.length ∧
      UncappedOK (PDFProcessor.extract_text env fname fexists fsize (.error e) (.ok fdoc)
        options) fdoc.length ∧
      UncappedOK (DOCXProcessor.extract_text env fname fexists fsize (.ok paras) options)
        (DOCXProcessor.group_into_pages paras).length) := by
  constructor
  · intro m hm hpos
    refine ⟨capped_mk _ _ options.max_pages m hm hpos rfl rfl ?_,
      capped_mk _ _ options.max_pages m hm hpos rfl rfl ?_,
      capped_mk _ _ options.max_pages m hm hpos rfl rfl ?_,
      capped_mk _ _ options.max_pages m hm hpos rfl rfl ?_⟩
    · simp [TXTProcessor.extract_text]
    · simp [PDFProcessor.extract_text, PDFProcessor.extract_with_pdfplumber]
    · simp [PDFProcessor.extract_text, PDFProcessor.extract_with_pymupdf]
    · simp [DOCXProcessor.extract_text]
  · intro hm
    refine ⟨uncapped_mk _ _ options.max_pages hm rfl rfl ?_,
      uncapped_mk _ _ options.max_pages hm rfl rfl ?_,
      uncapped_mk _ _ options.max_pages hm rfl rfl ?_,
      uncapped_mk _ _ options.max_pages hm rfl rfl ?_⟩
    · simp [TXTProcessor.extract_text]
    · simp [PDFProcessor.extract_text, PDFProcessor.extract_with_pdfplumber]
    · simp [PDFProcessor.extract_text, PDFProcessor.extract_with_pymupdf]
    · simp [DOCXProcessor.extract_text]

/-- C4 (witness): a three-page TXT content capped at one page. -/
theorem C4_witness :
    ((defaultOptions.withMax (some 1)).max_pages = some 1) ∧ (0 < (1 : Int)) ∧
    CappedOK (TXTProcessor.extract_text ⟨[], 0⟩ "f.txt".data true 3
        (.ok "a\x0cb\x0cc".data) (defaultOptions.withMax (some 1)))
      (TXTProcessor.split_into_pages "a\x0cb\x0cc".data).length 1 :=
  ⟨rfl, by decide,
    ((C4_pages_capping ⟨[], 0⟩ "f.txt".data true 3 "a\x0cb\x0cc".data [] []
        (.error []) [] [] (defaultOptions.withMax (some 1))).1 1 rfl (by decide)).1⟩

/-- The per-page invariant claim C6 asserts: text stripped at both ends,
`word_count` zero exactly on empty text and otherwise the token count of
the text, `character_count` the text length, `tables_count` the number
of tables. -/
def PageOK (pc : PageContent) : Prop :=
  (∀ c, pc.text.head? = some c → isPySpace c = false) ∧
  (∀ c, pc.text.getLast? = some c → isPySpace c = false) ∧
  (pc.word_count = 0 ↔ pc.text = []) ∧
  (pc.text ≠ [] → pc.word_count = (pyWords pc.text).length) ∧
  pc.character_count = pc.text.length ∧
  pc.tables_count = pc.tables.length

/-- Stripping always yields a good page text. -/
theorem goodPage_pyStrip (s : List Char) : GoodPage (pyStrip s) := by
  refine ⟨fun _ hc => pyStrip_head_not_space hc,
    fun _ hc => pyStrip_getLast_not_space hc, ?_⟩
  intro hne
  cases hp : pyStrip s with
  | nil => exact absurd hp hne
  | cons c r =>
    have hcw : isPySpace c = false :=
      pyStrip_head_not_space (s := s) (by rw [hp]; rfl)
    exact pyWords_ne_nil_of_mem (by simp) hcw

/-- A page built from raw text `raw` the way the PDF sub-strategies do
satisfies the page invariant. -/
theorem pageOK_of_strip (n : Nat) (raw : List Char) (tbls : List PyTable) :
    PageOK ⟨n, pyStrip raw,
      (if (pyStrip raw).isEmpty then 0 else (pyWords raw).length),
      (pyStrip raw).length, tbls.length, tbls⟩ := by
  obtain ⟨hh, hl, hw⟩ := goodPage_pyStrip raw
  refine ⟨hh, hl, ?_, ?_, rfl, rfl⟩
  · by_cases h : (pyStrip raw).isEmpty
    · rw [if_pos h]
      simp [List.isEmpty_iff.mp h]
    · rw [if_neg h]
      have hne : pyStrip raw ≠ [] := by
        intro habs
        rw [habs] at h
        exact h rfl
      have hwne : pyWords (pyStrip raw) ≠ [] := hw hne
      rw [← pyWords_pyStrip raw]
      constructor
      · intro h0
        exact absurd (List.length_eq_zero.mp h0) hwne
      · intro htxt
        exact absurd htxt hne
  · intro hne
    rw [if_neg (by simpa [List.isEmpty_iff] using hne), ← pyWords_pyStrip raw]

/-- A page built from an already good text (TXT and DOCX pages)
satisfies the page invariant. -/
theorem pageOK_of_good (n : Nat) (pg : List Char) (hg : GoodPage pg) :
    PageOK ⟨n, pg, (if pg.isEmpty then 0 else (pyWords pg).length),
      pg.length, 0, []⟩ := by
  obtain ⟨hh, hl, hw⟩ := hg
  refine ⟨hh, hl, ?_, ?_, rfl, rfl⟩
  · by_cases h : pg.isEmpty
    · rw [if_pos h]
      simp [List.isEmpty_iff.mp h]
    · rw [if_neg h]
      have hne : pg ≠ [] := by
        intro habs
        rw [habs] at h
        exact h rfl
      have hwne : pyWords pg ≠ [] := hw hne
      constructor
      · intro h0
        exact absurd (List.length_eq_zero.mp h0) hwne
      · intro htxt
        exact absurd htxt hne
  · intro hne
    rw [if_neg (by simpa [List.isEmpty_iff] using hne)]

/-- C6: every `PageContent` any strategy produces has trimmed text,
`word_count == 0` iff the text is empty, `word_count` the token count of
the text otherwise, `character_count == len(text)`, and
`tables_count == len(tables)`. -/
theorem C6_page_invariants (env : Env) (fname : List Char) (fexists : Bool)
    (fsize : Nat) (plumber : Except (List Char) (List PdfPage))
    (mupdf : Except (List Char) (List (List Char)))
    (rd : Except (List Char) (List Char))
    (dres : Except (List Char) (List (List Char))) (options : ProcessingOptions) :
    (∀ pc ∈ (PDFProcessor.extract_text env fname fexists fsize plumber mupdf
      options).pages, PageOK pc) ∧
    (∀ pc ∈ (TXTProcessor.extract_text env fname fexists fsize rd options).pages,
      PageOK pc) ∧
    (∀ pc ∈ (DOCXProcessor.extract_text env fname fexists fsize dres options).pages,
      PageOK pc) := by
  refine ⟨?_, ?_, ?_⟩
  · cases plumber with
    | ok pdf =>
      intro pc hpc
      simp only [PDFProcessor.extract_text, PDFProcessor.extract_with_pdfplumber,
        List.mem_map] at hpc
      obtain ⟨i, _, rfl⟩ := hpc
      exact pageOK_of_strip (i + 1) _ _
    | error e =>
      cases mupdf with
      | ok doc =>
        intro pc hpc
        simp only [PDFProcessor.extract_text, PDFProcessor.extract_with_pymupdf,
          List.mem_map] at hpc
        obtain ⟨i, _, rfl⟩ := hpc
        exact pageOK_of_strip (i + 1) _ []
      | error e2 =>
        intro pc hpc
        simp only [PDFProcessor.extract_text] at hpc
        simp at hpc
  · cases rd with
    | ok content =>
      intro pc hpc
      simp only [TXTProcessor.extract_text, List.mem_map] at hpc
      obtain ⟨i, _, rfl⟩ := hpc
      exact pageOK_of_good (i + 1) _ (goodPage_pyStrip _)
    | error e =>
      intro pc hpc
      simp only [TXTProcessor.extract_text] at hpc
      simp at hpc
  · cases dres with
    | ok paras =>
      intro pc hpc
      simp only [DOCXProcessor.extract_text, List.mem_map, List.mem_range] at hpc
      obtain ⟨i, hi, rfl⟩ := hpc
      refine pageOK_of_good (i + 1) _ ?_
      have hle : (min (pyOrInt options.max_pages
          ((DOCXProcessor.group_into_pages paras).length : Int))
          ((DOCXProcessor.group_into_pages paras).length : Int)).toNat ≤
          (DOCXProcessor.group_into_pages paras).length := by
        have := min_le_right (pyOrInt options.max_pages
          ((DOCXProcessor.group_into_pages paras).length : Int))
          ((DOCXProcessor.group_into_pages paras).length : Int)
        omega
      have hilt : i < (DOCXProcessor.group_into_pages paras).length :=
        lt_of_lt_of_le hi hle
      rw [List.getD_eq_getElem (DOCXProcessor.group_into_pages paras) [] hilt]
      exact group_into_pages_good paras _ (List.getElem_mem hilt)
    | error e =>
      intro pc hpc
      simp only [DOCXProcessor.extract_text] at hpc
      simp at hpc

/-- C6 (witness): the page invariant holds for the page extracted from a
concrete two-word TXT file. -/
theorem C6_witness : PageOK ⟨1, "hi there".data, 2, 8, 0, []⟩ :=
  (C6_page_invariants ⟨[], 0⟩ "f.txt".data true 8 (.error []) (.error [])
      (.ok "hi there".data) (.error []) defaultOptions).2.1
    ⟨1, "hi there".data, 2, 8, 0, []⟩ (by decide)
